import Mathlib

/-!
Verification of the `wither` schema-migration engine (`src/migration.rs`).

The development embeds `IntervalMigration` and its `execute` method as pure
Lean functions.  Wall-clock time (`chrono::Utc::now()`) is passed in as an
explicit `now` parameter on an integer timeline; the MongoDB collection
handle is passed as an explicit store-behaviour function, and the calls
`execute` issues to it are returned as an explicit trace so that "no store
call is issued" becomes a provable statement.  The document-store driver
itself is external to `src/`; where a claim depends on its behaviour
(`update_many` semantics), it is modelled from the spec in a second layer
below.
-/

/-- The fragment of BSON values that the migration code manipulates.
`document` embeds a sub-document as an ordered list of key-value pairs,
mirroring the ordered-map representation of `bson::Document`. -/
inductive Bson where
  | int32 (n : Int)
  | str (s : String)
  | boolean (b : Bool)
  | document (d : List (String × Bson))

mutual

def Bson.beq : Bson → Bson → Bool
  | .int32 a, .int32 b => a == b
  | .str a, .str b => a == b
  | .boolean a, .boolean b => a == b
  | .document a, .document b => Bson.beqDoc a b
  | _, _ => false

def Bson.beqDoc : List (String × Bson) → List (String × Bson) → Bool
  | [], [] => true
  | p :: r, q :: s => p.1 == q.1 && Bson.beq p.2 q.2 && Bson.beqDoc r s
  | _, _ => false

end

mutual

theorem Bson.eq_of_beq : ∀ (a b : Bson), Bson.beq a b = true → a = b
  | .int32 a, .int32 b, h => by simp [Bson.beq] at h; simp [h]
  | .int32 _, .str _, h => by simp [Bson.beq] at h
  | .int32 _, .boolean _, h => by simp [Bson.beq] at h
  | .int32 _, .document _, h => by simp [Bson.beq] at h
  | .str _, .int32 _, h => by simp [Bson.beq] at h
  | .str a, .str b, h => by simp [Bson.beq] at h; simp [h]
  | .str _, .boolean _, h => by simp [Bson.beq] at h
  | .str _, .document _, h => by simp [Bson.beq] at h
  | .boolean _, .int32 _, h => by simp [Bson.beq] at h
  | .boolean _, .str _, h => by simp [Bson.beq] at h
  | .boolean a, .boolean b, h => by simp [Bson.beq] at h; simp [h]
  | .boolean _, .document _, h => by simp [Bson.beq] at h
  | .document _, .int32 _, h => by simp [Bson.beq] at h
  | .document _, .str _, h => by simp [Bson.beq] at h
  | .document _, .boolean _, h => by simp [Bson.beq] at h
  | .document a, .document b, h => by
      simp [Bson.beq] at h
      exact congrArg Bson.document (Bson.eqDoc_of_beqDoc a b h)

theorem Bson.eqDoc_of_beqDoc : ∀ (a b : List (String × Bson)), Bson.beqDoc a b = true → a = b
  | [], [], _ => rfl
  | [], _ :: _, h => by simp [Bson.beqDoc] at h
  | _ :: _, [], h => by simp [Bson.beqDoc] at h
  | p :: r, q :: s, h => by
      simp [Bson.beqDoc] at h
      obtain ⟨⟨h1, h2⟩, h3⟩ := h
      have e2 := Bson.eq_of_beq p.2 q.2 h2
      have e3 := Bson.eqDoc_of_beqDoc r s h3
      cases p; cases q; simp_all

end

mutual

theorem Bson.beq_refl : ∀ a : Bson, Bson.beq a a = true
  | .int32 _ => by simp [Bson.beq]
  | .str _ => by simp [Bson.beq]
  | .boolean _ => by simp [Bson.beq]
  | .document d => Bson.beqDoc_refl d

theorem Bson.beqDoc_refl : ∀ d : List (String × Bson), Bson.beqDoc d d = true
  | [] => rfl
  | p :: r => by simp [Bson.beqDoc, Bson.beq_refl p.2, Bson.beqDoc_refl r]

end

instance : DecidableEq Bson := fun a b =>
  if h : Bson.beq a b = true then isTrue (Bson.eq_of_beq a b h)
  else isFalse (fun hh => h (hh ▸ Bson.beq_refl a))

/-- A BSON document: an ordered association of field names to values,
as in `bson::Document`. -/
abbrev Document := List (String × Bson)

/-- Insertion into a `bson::Document` (its `insert_bson`): if the key is
already present its value is replaced in place, otherwise the pair is
appended at the end. -/
def Document.insertBson (d : Document) (k : String) (v : Bson) : Document :=
  if d.any (fun p => p.1 = k) then
    d.map (fun p => if p.1 = k then (k, v) else p)
  else
    d ++ [(k, v)]

/-- `mongodb::common::WriteConcern` (the fields the migration code sets). -/
structure WriteConcern where
  w : Int
  w_timeout : Int
  j : Bool
  fsync : Bool
deriving DecidableEq

/-- `mongodb::coll::options::UpdateOptions` (the fields the migration code sets). -/
structure UpdateOptions where
  upsert : Option Bool
  write_concern : Option WriteConcern
deriving DecidableEq

/-- A per-document write exception embedded in an otherwise-successful
`update_many` response (`mongodb` `WriteException`); its payload is
treated as an uninterpreted description. -/
structure WriteException where
  message : String
deriving DecidableEq

/-- The result of a successful `update_many` call
(`mongodb::coll::results::UpdateResult`). -/
structure UpdateResult where
  matched_count : Nat
  modified_count : Nat
  write_exception : Option WriteException
deriving DecidableEq

/-- A transport/protocol-level failure produced by the driver itself
(connection lost, timeout, ...); its payload is an uninterpreted
description.  The migration code never constructs these, it only
propagates them. -/
structure StoreFailure where
  message : String
deriving DecidableEq

/-- The error type of `mongodb::error::Error`, partitioned by origin as the
migration layer uses it: `DefaultError` and `WriteError` are the variants
constructed by `IntervalMigration::execute` itself (lines 123 and 139 of
`migration.rs`); `StoreError` carries a driver-side failure propagated
unchanged by the `?` on the `update_many` call (line 134). -/
inductive MongoError where
  | DefaultError (msg : String)
  | WriteError (e : WriteException)
  | StoreError (e : StoreFailure)
deriving DecidableEq

/-- The exact message of the configuration error at `migration.rs` line 123. -/
def configErrorMsg : String := "One of \x27$set\x27 or \x27$unset\x27 must be specified."

/-- One `update_many` call as issued to the collection handle: the filter,
the assembled update document, and the options. -/
structure StoreCall where
  filter : Document
  update : Document
  options : Option UpdateOptions
deriving DecidableEq

/-- The `IntervalMigration` struct of `migration.rs`.  `threshold` is the
UTC instant (on an integer timeline standing for
`chrono::DateTime<chrono::Utc>`) after which the migration no longer
executes. -/
structure IntervalMigration where
  name : String
  threshold : Int
  filter : Document
  set : Option Document
  unset : Option Document
deriving DecidableEq

/-- The update document assembled by `execute` (lines 121-130): start from
the empty document, insert the `$set` clause when `set` is present, then
insert the `$unset` clause when `unset` is present. -/
def IntervalMigration.buildUpdate (m : IntervalMigration) : Document :=
  let update : Document := []
  let update := match m.set with
    | some s => update.insertBson "$set" (Bson.document s)
    | none => update
  match m.unset with
  | some u => update.insertBson "$unset" (Bson.document u)
  | none => update

/-- The options passed to `update_many` (line 133): upsert disabled, write
concern `w: 1, w_timeout: 0, j: true, fsync: false`. -/
def migrationUpdateOptions : UpdateOptions :=
  { upsert := some false
    write_concern := some { w := 1, w_timeout := 0, j := true, fsync := false } }

/-- `IntervalMigration::execute` (lines 112-143).  `now` is the value of
`chrono::Utc::now()` at the moment of execution; `store` gives the
response of the collection handle to an `update_many` call.  Returns the
`Result<(), Error>` together with the list of store calls issued. -/
def IntervalMigration.execute (m : IntervalMigration) (now : Int)
    (store : StoreCall → Except StoreFailure UpdateResult) :
    Except MongoError Unit × List StoreCall :=
  if now > m.threshold then
    (Except.ok (), [])
  else if m.set.isNone && m.unset.isNone then
    (Except.error (MongoError.DefaultError configErrorMsg), [])
  else
    let call : StoreCall := ⟨m.filter, m.buildUpdate, some migrationUpdateOptions⟩
    match store call with
    | Except.error e => (Except.error (MongoError.StoreError e), [call])
    | Except.ok res =>
      match res.write_exception with
      | some err => (Except.error (MongoError.WriteError err), [call])
      | none => (Except.ok (), [call])

instance {ε α : Type} [DecidableEq ε] [DecidableEq α] : DecidableEq (Except ε α) := fun a b =>
  match a, b with
  | .ok x, .ok y =>
      if h : x = y then isTrue (by rw [h])
      else isFalse (by intro hh; injection hh; contradiction)
  | .error x, .error y =>
      if h : x = y then isTrue (by rw [h])
      else isFalse (by intro hh; injection hh; contradiction)
  | .ok _, .error _ => isFalse (fun hh => Except.noConfusion hh)
  | .error _, .ok _ => isFalse (fun hh => Except.noConfusion hh)

/-- A stored document in a collection: a finite map from field names to
BSON values.  `Finmap` gives extensional (field-state) equality, matching
the field-state view of a MongoDB document. -/
abbrev MDoc := Finmap (fun _ : String => Bson)

/-- Modelled from the spec: the per-document `$set` semantics of the
external document-store driver (the driver is not part of src/) — "set
these fields": each listed field is set to the given value. -/
def applySet (s : Document) (d : MDoc) : MDoc :=
  s.foldl (fun d p => d.insert p.1 p.2) d

/-- Modelled from the spec: the per-document `$unset` semantics of the
external document-store driver — "remove these fields". -/
def applyUnset (u : Document) (d : MDoc) : MDoc :=
  u.foldl (fun d p => d.erase p.1) d

/-- Modelled from the spec: per-document application of an assembled update
document, clause by clause: a `$set` clause sets fields, an `$unset` clause
removes them. -/
def applyUpdateDoc (upd : Document) (d : MDoc) : MDoc :=
  upd.foldl (fun d c =>
    match c with
    | ("$set", Bson.document s) => applySet s d
    | ("$unset", Bson.document u) => applyUnset u d
    | _ => d) d

/-- Modelled from the spec: the external drivers `update_many` — select
every document matching the filter, apply the update document to each;
`matched_count` counts the selected documents and `modified_count` those
actually changed by the update. -/
def update_many (sel : MDoc → Bool) (upd : Document) (coll : List MDoc) :
    List MDoc × UpdateResult :=
  ((coll.map fun d => if sel d then applyUpdateDoc upd d else d),
   { matched_count := (coll.filter sel).length
     modified_count :=
       (coll.filter fun d => sel d && decide (applyUpdateDoc upd d ≠ d)).length
     write_exception := none })

/-- `IntervalMigration::execute` run against the spec-modelled store: the
collection state is an explicit list of documents and the filter is
interpreted by `filterSem`.  Returns the new collection state, the result,
and the `UpdateResult` the store reported (when a call was made). -/
def IntervalMigration.executeOn (m : IntervalMigration) (now : Int)
    (filterSem : Document → MDoc → Bool) (coll : List MDoc) :
    List MDoc × Except MongoError Unit × Option UpdateResult :=
  if now > m.threshold then (coll, Except.ok (), none)
  else if m.set.isNone && m.unset.isNone then
    (coll, Except.error (MongoError.DefaultError configErrorMsg), none)
  else
    let r := update_many (filterSem m.filter) m.buildUpdate coll
    match r.2.write_exception with
    | some err => (r.1, Except.error (MongoError.WriteError err), some r.2)
    | none => (r.1, Except.ok (), some r.2)

/-- The value a `$set` document assigns to field `k`, the last entry for a
repeated key winning, as in repeated insertion. -/
def setLookup (s : Document) (k : String) : Option Bson :=
  match s with
  | [] => none
  | p :: rest => (setLookup rest k).or (if p.1 = k then some p.2 else none)

theorem lookup_applySet (s : Document) (d : MDoc) (k : String) :
    (applySet s d).lookup k = (setLookup s k).or (d.lookup k) := by
  induction s generalizing d with
  | nil => simp [applySet, setLookup]
  | cons p rest ih =>
      have hstep : applySet (p :: rest) d = applySet rest (d.insert p.1 p.2) := rfl
      rw [hstep, ih]
      by_cases hk : p.1 = k
      · subst hk
        rw [Finmap.lookup_insert]
        simp only [setLookup, if_pos rfl]
        cases setLookup rest p.1 <;> simp
      · rw [Finmap.lookup_insert_of_ne _ (fun hh => hk hh.symm)]
        simp only [setLookup, if_neg hk]
        cases setLookup rest k <;> simp

theorem lookup_applyUnset (u : Document) (d : MDoc) (k : String) :
    (applyUnset u d).lookup k =
      if u.any (fun p => p.1 = k) then none else d.lookup k := by
  induction u generalizing d with
  | nil => simp [applyUnset]
  | cons p rest ih =>
      have hstep : applyUnset (p :: rest) d = applyUnset rest (d.erase p.1) := rfl
      rw [hstep, ih]
      by_cases hk : p.1 = k
      · subst hk
        by_cases hr : rest.any (fun q => q.1 = p.1)
        · simp [hr]
        · simp [hr, Finmap.lookup_erase]
      · by_cases hr : rest.any (fun q => q.1 = k)
        · simp [hr, hk]
        · simp [hr, hk, Finmap.lookup_erase_ne (fun hh : k = p.1 => hk hh.symm)]

/-- The assembled update applies as the `$set` clause followed by the
`$unset` clause (an absent clause applying nothing). -/
theorem applyUpdateDoc_buildUpdate (m : IntervalMigration) (d : MDoc) :
    applyUpdateDoc m.buildUpdate d =
      applyUnset (m.unset.getD []) (applySet (m.set.getD []) d) := by
  rcases hs : m.set with _ | s <;> rcases hu : m.unset with _ | u <;>
    simp [IntervalMigration.buildUpdate, applyUpdateDoc, Document.insertBson,
      hs, hu, applySet, applyUnset]

/-- Re-applying the same `$set` then `$unset` pair to a document that has
already absorbed it changes nothing. -/
theorem applySet_applyUnset_idem (s u : Document) (d : MDoc) :
    applyUnset u (applySet s (applyUnset u (applySet s d))) =
      applyUnset u (applySet s d) := by
  apply Finmap.ext_lookup
  intro k
  rw [lookup_applyUnset, lookup_applySet, lookup_applyUnset, lookup_applySet]
  by_cases hu : u.any (fun p => p.1 = k)
  · simp [hu]
  · simp only [if_neg hu]
    cases setLookup s k <;> simp

/-- Per-document idempotence of the assembled migration update. -/
theorem applyUpdateDoc_buildUpdate_idem (m : IntervalMigration) (d : MDoc) :
    applyUpdateDoc m.buildUpdate (applyUpdateDoc m.buildUpdate d) =
      applyUpdateDoc m.buildUpdate d := by
  rw [applyUpdateDoc_buildUpdate, applyUpdateDoc_buildUpdate]
  exact applySet_applyUnset_idem _ _ d

/-! Concrete fixtures used by witnesses and counterexamples. -/

/-- A store behaviour that reports success with nothing matched. -/
def storeOkEmpty : StoreCall → Except StoreFailure UpdateResult :=
  fun _ => Except.ok { matched_count := 0, modified_count := 0, write_exception := none }

/-- A store behaviour whose successful response embeds a write exception. -/
def storeWithException : StoreCall → Except StoreFailure UpdateResult :=
  fun _ => Except.ok
    { matched_count := 3, modified_count := 0,
      write_exception := some { message := "duplicate key" } }

/-- A store behaviour that fails at the transport level. -/
def storeDown : StoreCall → Except StoreFailure UpdateResult :=
  fun _ => Except.error { message := "connection reset" }

/-- A fixture migration with both `set` and `unset` absent. -/
def mBothAbsent : IntervalMigration :=
  { name := "both-absent", threshold := 0, filter := [("flag", Bson.boolean true)],
    set := none, unset := none }

/-- A fixture migration with a `$set` clause only. -/
def mSetOnly : IntervalMigration :=
  { name := "set-only", threshold := 0, filter := [("flag", Bson.boolean true)],
    set := some [("a", Bson.int32 1)], unset := none }

/-- A fixture migration with an empty `$set` document. -/
def mEmptySet : IntervalMigration :=
  { name := "empty-set", threshold := 0, filter := [("flag", Bson.boolean true)],
    set := some [], unset := none }

/-- A fixture migration with both a `$set` and an `$unset` clause. -/
def mSetUnset : IntervalMigration :=
  { name := "set-unset", threshold := 0, filter := [("flag", Bson.boolean true)],
    set := some [("a", Bson.int32 1)], unset := some [("b", Bson.str "")] }

/-- C1 (counterexample): with both `set` and `unset` absent but the current
time already past the threshold, `execute` returns success, not the
configuration error — the threshold check precedes the configuration
check. -/
theorem config_guard_past_threshold_counterexample :
    (1 : Int) > mBothAbsent.threshold ∧
    mBothAbsent.execute 1 storeOkEmpty = (Except.ok (), []) ∧
    (mBothAbsent.execute 1 storeOkEmpty).1 ≠
      Except.error (MongoError.DefaultError configErrorMsg) := by
  refine ⟨by decide, rfl, by decide⟩

/-- C1 (amended): for every IntervalMigration with both `set` and `unset`
absent, `execute` returns the configuration error regardless of `filter`
(and issues no store call), provided the current time has not yet passed
the threshold; when the current time is past the threshold it returns
success without reaching the configuration check. -/
theorem config_guard (m : IntervalMigration) (now : Int)
    (store : StoreCall → Except StoreFailure UpdateResult)
    (hs : m.set = none) (hu : m.unset = none) :
    (now ≤ m.threshold →
      m.execute now store =
        (Except.error (MongoError.DefaultError configErrorMsg), [])) ∧
    (now > m.threshold → m.execute now store = (Except.ok (), [])) := by
  constructor
  · intro hth
    simp [IntervalMigration.execute, hs, hu, not_lt.2 hth]
  · intro hth
    simp [IntervalMigration.execute, hth]

theorem config_guard_witness :
    mBothAbsent.execute 0 storeOkEmpty =
      (Except.error (MongoError.DefaultError configErrorMsg), []) ∧
    mBothAbsent.execute 1 storeOkEmpty = (Except.ok (), []) :=
  ⟨(config_guard mBothAbsent 0 storeOkEmpty rfl rfl).1 (by decide),
   (config_guard mBothAbsent 1 storeOkEmpty rfl rfl).2 (by decide)⟩

/-- C2 (counterexample): at a current time exactly equal to the threshold,
`execute` is not a no-op — it issues a store call, because the code checks
`now > threshold` strictly. -/
theorem threshold_equality_counterexample :
    (0 : Int) = mSetOnly.threshold ∧
    (mSetOnly.execute 0 storeOkEmpty).2 ≠ [] := by
  refine ⟨rfl, by decide⟩

/-- C2 (amended): `execute` performs no store operation and returns success
exactly when the current time is strictly later than the threshold; when
the current time is at or before the threshold (and at least one of
`set`/`unset` is present), it issues the update against the store — in
particular, at a current time exactly equal to the threshold, `execute`
issues the update rather than no-op. -/
theorem threshold_strictness (m : IntervalMigration) (now : Int)
    (store : StoreCall → Except StoreFailure UpdateResult)
    (hcfg : (m.set.isNone && m.unset.isNone) = false) :
    (now > m.threshold → m.execute now store = (Except.ok (), [])) ∧
    (now ≤ m.threshold →
      (m.execute now store).2 =
        [⟨m.filter, m.buildUpdate, some migrationUpdateOptions⟩]) := by
  constructor
  · intro hth
    simp [IntervalMigration.execute, hth]
  · intro hth
    simp only [IntervalMigration.execute, if_neg (not_lt.2 hth), hcfg, if_neg]
    cases store ⟨m.filter, m.buildUpdate, some migrationUpdateOptions⟩ with
    | error e => simp
    | ok res => rcases hwe : res.write_exception with _ | err <;> simp [hwe]

theorem threshold_strictness_witness :
    (mSetOnly.execute 1 storeOkEmpty = (Except.ok (), [])) ∧
    ((mSetOnly.execute 0 storeOkEmpty).2 =
      [⟨mSetOnly.filter, mSetOnly.buildUpdate, some migrationUpdateOptions⟩]) :=
  ⟨(threshold_strictness mSetOnly 1 storeOkEmpty rfl).1 (by decide),
   (threshold_strictness mSetOnly 0 storeOkEmpty rfl).2 (by decide)⟩

/-- C3 (confirmed): with the threshold strictly in the past at the moment
of execution, `execute` issues zero store calls and returns success. -/
theorem threshold_passed_is_noop (m : IntervalMigration) (now : Int)
    (store : StoreCall → Except StoreFailure UpdateResult)
    (hth : now > m.threshold) :
    m.execute now store = (Except.ok (), []) := by
  simp [IntervalMigration.execute, hth]

theorem threshold_passed_is_noop_witness :
    mSetOnly.execute 5 storeWithException = (Except.ok (), []) :=
  threshold_passed_is_noop mSetOnly 5 storeWithException (by decide)

/-- C4 (confirmed): when the threshold has not been passed and the store
answers the issued `update_many` call with a successful outcome that
carries an embedded write exception, `execute` returns `WriteError` with
that exception, never success. -/
theorem write_exception_surfaced (m : IntervalMigration) (now : Int)
    (store : StoreCall → Except StoreFailure UpdateResult)
    (res : UpdateResult) (err : WriteException)
    (hth : now ≤ m.threshold)
    (hcfg : (m.set.isNone && m.unset.isNone) = false)
    (hstore : store ⟨m.filter, m.buildUpdate, some migrationUpdateOptions⟩ = Except.ok res)
    (herr : res.write_exception = some err) :
    (m.execute now store).1 = Except.error (MongoError.WriteError err) := by
  simp [IntervalMigration.execute, if_neg (not_lt.2 hth), hcfg, hstore, herr]

theorem write_exception_surfaced_witness :
    (mSetOnly.execute 0 storeWithException).1 =
      Except.error (MongoError.WriteError { message := "duplicate key" }) :=
  write_exception_surfaced mSetOnly 0 storeWithException
    { matched_count := 3, modified_count := 0,
      write_exception := some { message := "duplicate key" } }
    { message := "duplicate key" } (by decide) rfl rfl rfl

/-- C5 (confirmed): the assembled update document contains a `$set` clause
exactly when `set` is present and an `$unset` clause exactly when `unset`
is present; with `set = some s` and `unset = some u` it is exactly the
two-entry document with the `$set` clause equal to `s` and the `$unset`
clause equal to `u`, and no other keys. -/
theorem update_shape (m : IntervalMigration) :
    ((m.buildUpdate).any (fun p => p.1 = "$set") = m.set.isSome) ∧
    ((m.buildUpdate).any (fun p => p.1 = "$unset") = m.unset.isSome) ∧
    (∀ s u, m.set = some s → m.unset = some u →
      m.buildUpdate = [("$set", Bson.document s), ("$unset", Bson.document u)]) := by
  rcases hs : m.set with _ | s <;> rcases hu : m.unset with _ | u <;>
    simp [IntervalMigration.buildUpdate, Document.insertBson, hs, hu]

theorem update_shape_witness :
    ((mSetUnset.buildUpdate).any (fun p => p.1 = "$set") = mSetUnset.set.isSome) ∧
    ((mSetUnset.buildUpdate).any (fun p => p.1 = "$unset") = mSetUnset.unset.isSome) ∧
    mSetUnset.buildUpdate =
      [("$set", Bson.document [("a", Bson.int32 1)]),
       ("$unset", Bson.document [("b", Bson.str "")])] :=
  ⟨(update_shape mSetUnset).1, (update_shape mSetUnset).2.1,
   (update_shape mSetUnset).2.2 [("a", Bson.int32 1)] [("b", Bson.str "")] rfl rfl⟩

/-- C6 (confirmed): every store call `execute` issues carries the fixed
options: upsert disabled (`some false`) and a journaled durability write
concern (`j = true`). -/
theorem update_options_durability (m : IntervalMigration) (now : Int)
    (store : StoreCall → Except StoreFailure UpdateResult) (call : StoreCall)
    (hc : call ∈ (m.execute now store).2) :
    call.options = some migrationUpdateOptions ∧
    migrationUpdateOptions.upsert = some false ∧
    ∃ wc, migrationUpdateOptions.write_concern = some wc ∧ wc.j = true := by
  refine ⟨?_, rfl, ⟨_, rfl, rfl⟩⟩
  revert hc
  by_cases hth : now > m.threshold
  · simp [IntervalMigration.execute, hth]
  · by_cases hcfg : (m.set.isNone && m.unset.isNone) = true
    · simp [IntervalMigration.execute, if_neg hth, hcfg]
    · simp only [IntervalMigration.execute, if_neg hth,
        if_neg (fun hh => hcfg hh)]
      cases store ⟨m.filter, m.buildUpdate, some migrationUpdateOptions⟩ with
      | error e =>
          intro hc
          simp at hc
          simp [hc]
      | ok res =>
          rcases hwe : res.write_exception with _ | err <;>
            · intro hc
              simp [hwe] at hc
              simp [hc]

theorem update_options_durability_witness :
    (⟨mSetOnly.filter, mSetOnly.buildUpdate, some migrationUpdateOptions⟩ :
        StoreCall).options = some migrationUpdateOptions ∧
    migrationUpdateOptions.upsert = some false ∧
    ∃ wc, migrationUpdateOptions.write_concern = some wc ∧ wc.j = true :=
  update_options_durability mSetOnly 0 storeOkEmpty
    ⟨mSetOnly.filter, mSetOnly.buildUpdate, some migrationUpdateOptions⟩
    (by rw [(threshold_strictness mSetOnly 0 storeOkEmpty rfl).2 (by decide)]
        exact List.mem_singleton.2 rfl)

/-- C8 (confirmed): a transport/protocol-level failure from the store is
propagated unchanged as a `StoreError`: the result carries exactly the
failure value the store returned, not success and not another error
kind. -/
theorem store_failure_propagated (m : IntervalMigration) (now : Int)
    (store : StoreCall → Except StoreFailure UpdateResult) (f : StoreFailure)
    (hth : now ≤ m.threshold)
    (hcfg : (m.set.isNone && m.unset.isNone) = false)
    (hstore : store ⟨m.filter, m.buildUpdate, some migrationUpdateOptions⟩ =
      Except.error f) :
    (m.execute now store).1 = Except.error (MongoError.StoreError f) := by
  simp [IntervalMigration.execute, if_neg (not_lt.2 hth), hcfg, hstore]

theorem store_failure_propagated_witness :
    (mSetOnly.execute 0 storeDown).1 =
      Except.error (MongoError.StoreError { message := "connection reset" }) :=
  store_failure_propagated mSetOnly 0 storeDown { message := "connection reset" }
    (by decide) rfl rfl

/-- C9 (confirmed): the configuration guard tests presence, not
non-emptiness: with `set = some (empty document)` and `unset` absent
(threshold not passed), `execute` does not take the configuration-error
path — it issues exactly one `update_many` call whose update document is
the one-clause document with an empty `$set`, and its result is never the
configuration error. -/
theorem empty_set_document_accepted (m : IntervalMigration) (now : Int)
    (store : StoreCall → Except StoreFailure UpdateResult)
    (hs : m.set = some []) (hu : m.unset = none) (hth : now ≤ m.threshold) :
    (m.execute now store).2 =
      [⟨m.filter, [("$set", Bson.document [])], some migrationUpdateOptions⟩] ∧
    ∀ e, (m.execute now store).1 ≠ Except.error (MongoError.DefaultError e) := by
  have hb : m.buildUpdate = [("$set", Bson.document [])] := by
    simp [IntervalMigration.buildUpdate, Document.insertBson, hs, hu]
  have hcfg : (m.set.isNone && m.unset.isNone) = false := by simp [hs]
  simp only [IntervalMigration.execute, if_neg (not_lt.2 hth), hcfg, if_neg, hb]
  cases store ⟨m.filter, [("$set", Bson.document [])], some migrationUpdateOptions⟩ with
  | error e => simp
  | ok res => rcases hwe : res.write_exception with _ | err <;> simp [hwe]

theorem empty_set_document_accepted_witness :
    (mEmptySet.execute 0 storeOkEmpty).2 =
      [⟨mEmptySet.filter, [("$set", Bson.document [])], some migrationUpdateOptions⟩] ∧
    (mEmptySet.execute 0 storeOkEmpty).1 ≠
      Except.error (MongoError.DefaultError configErrorMsg) :=
  ⟨(empty_set_document_accepted mEmptySet 0 storeOkEmpty rfl rfl (by decide)).1,
   (empty_set_document_accepted mEmptySet 0 storeOkEmpty rfl rfl (by decide)).2
     configErrorMsg⟩

/-- In the non-noop, well-configured case, `executeOn` is exactly one
modelled `update_many` round trip reporting success. -/
theorem executeOn_store_branch (m : IntervalMigration) (now : Int)
    (filterSem : Document → MDoc → Bool) (coll : List MDoc)
    (hth : ¬ now > m.threshold)
    (hcfg : (m.set.isNone && m.unset.isNone) = false) :
    m.executeOn now filterSem coll =
      ((update_many (filterSem m.filter) m.buildUpdate coll).1, Except.ok (),
        some (update_many (filterSem m.filter) m.buildUpdate coll).2) := by
  simp [IntervalMigration.executeOn, if_neg hth, hcfg, update_many]

/-- A fixture filter semantics: a document matches when it has a "legacy"
field (the interpretation of an `$exists` filter). -/
def legacySem : Document → MDoc → Bool := fun _ d => (d.lookup "legacy").isSome

/-- A fixture migration that removes the "legacy" field until its
threshold. -/
def mDropLegacy : IntervalMigration :=
  { name := "drop-legacy", threshold := 100,
    filter := [("legacy", Bson.document [("$exists", Bson.boolean true)])],
    set := none, unset := some [("legacy", Bson.str "")] }

/-- A two-document fixture collection: one document with the "legacy"
field, one without. -/
def collFixture : List MDoc :=
  [(∅ : MDoc).insert "legacy" (Bson.int32 7), (∅ : MDoc).insert "other" (Bson.int32 1)]

/-- C10 (confirmed): the configuration-error path is atomic with respect to
the store: whenever `execute` returns the configuration error, no store
call has been issued, and in the stateful store model the collection is
unchanged by that execution. -/
theorem configuration_error_is_atomic (m : IntervalMigration) (now : Int)
    (store : StoreCall → Except StoreFailure UpdateResult)
    (filterSem : Document → MDoc → Bool) (coll : List MDoc) (msg : String) :
    ((m.execute now store).1 = Except.error (MongoError.DefaultError msg) →
      (m.execute now store).2 = []) ∧
    ((m.executeOn now filterSem coll).2.1 = Except.error (MongoError.DefaultError msg) →
      (m.executeOn now filterSem coll).1 = coll) := by
  by_cases hth : now > m.threshold
  · simp [IntervalMigration.execute, IntervalMigration.executeOn, hth]
  · by_cases hcfg : (m.set.isNone && m.unset.isNone) = true
    · simp [IntervalMigration.execute, IntervalMigration.executeOn, if_neg hth, hcfg]
    · have hcfg' : (m.set.isNone && m.unset.isNone) = false :=
        Bool.eq_false_iff.2 hcfg
      constructor
      · simp only [IntervalMigration.execute, if_neg hth, hcfg', if_neg]
        cases store ⟨m.filter, m.buildUpdate, some migrationUpdateOptions⟩ with
        | error e => simp
        | ok res => rcases hwe : res.write_exception with _ | err <;> simp [hwe]
      · rw [executeOn_store_branch m now filterSem coll hth hcfg']
        simp

theorem configuration_error_is_atomic_witness :
    ((mBothAbsent.execute 0 storeOkEmpty).2 = []) ∧
    ((mBothAbsent.executeOn 0 legacySem collFixture).1 = collFixture) :=
  ⟨(configuration_error_is_atomic mBothAbsent 0 storeOkEmpty legacySem collFixture
      configErrorMsg).1 rfl,
   (configuration_error_is_atomic mBothAbsent 0 storeOkEmpty legacySem collFixture
      configErrorMsg).2 rfl⟩

/-- C7 (confirmed against the spec-modelled store): with the threshold not
passed and at least one of `set`/`unset` present, executing the same
migration twice in succession with no interleaving external writes yields,
on the second execution, an update outcome with `modified_count = 0`:
re-applying the `$set`/`$unset` to already-converged documents changes
nothing. -/
theorem second_run_modified_count_zero (m : IntervalMigration) (now : Int)
    (filterSem : Document → MDoc → Bool) (coll : List MDoc)
    (hth : now ≤ m.threshold)
    (hcfg : (m.set.isNone && m.unset.isNone) = false) :
    ∃ r : UpdateResult,
      (m.executeOn now filterSem (m.executeOn now filterSem coll).1).2.2 = some r ∧
      r.modified_count = 0 := by
  have hnth : ¬ now > m.threshold := not_lt.2 hth
  have h1 := executeOn_store_branch m now filterSem coll hnth hcfg
  have h2 := executeOn_store_branch m now filterSem
    (update_many (filterSem m.filter) m.buildUpdate coll).1 hnth hcfg
  refine ⟨(update_many (filterSem m.filter) m.buildUpdate
      (update_many (filterSem m.filter) m.buildUpdate coll).1).2, ?_, ?_⟩
  · rw [h1]
    exact congrArg (fun t => t.2.2) h2
  · simp [update_many]
    intro a _ hsel
    by_cases h0 : filterSem m.filter a
    · simp only [if_pos h0]
      exact applyUpdateDoc_buildUpdate_idem m _
    · rw [if_neg h0] at hsel
      exact absurd hsel h0

theorem second_run_modified_count_zero_witness :
    ∃ r : UpdateResult,
      (mDropLegacy.executeOn 0 legacySem
        (mDropLegacy.executeOn 0 legacySem collFixture).1).2.2 = some r ∧
      r.modified_count = 0 :=
  second_run_modified_count_zero mDropLegacy 0 legacySem collFixture (by decide) rfl
